import Mathlib

/-!
Shallow embedding of the `jenginsu/ssot-project` repository in Lean 4,
with theorems settling the frozen claims about its specification.

Python strings are modelled as `List Char`.  The ASCII whitespace
characters recognised by Python's `str.strip` and by the regex class
`\s` are modelled by `isPySpace` (space, tab, newline, carriage return,
vertical tab, form feed).
-/

/-- The backquote character, written via its code point. -/
def backquote : Char := Char.ofNat 96

/-- The three-backquote code-fence delimiter used by the extractors. -/
def fence3 : List Char := [backquote, backquote, backquote]

/-- Whitespace as recognised by Python's `str.strip` and regex `\s`
(ASCII range). -/
def isPySpace (c : Char) : Bool :=
  c = ' ' || c = '\t' || c = '\n' || c = '\r' || c = Char.ofNat 11 || c = Char.ofNat 12

/-- Python `str.strip()`: drop leading and trailing whitespace. -/
def pyStrip (s : List Char) : List Char :=
  ((s.dropWhile isPySpace).reverse.dropWhile isPySpace).reverse

/-- Split a character list at the first occurrence of `pat`:
returns `some (before, after)` with the input equal to
`before ++ pat ++ after` and `before` shortest possible, `none` when
`pat` does not occur.  This models the leftmost-match rule of Python's
`re.search` for the literal part of the extraction patterns. -/
def splitFirst (pat : List Char) : List Char → Option (List Char × List Char)
  | [] => if pat.isPrefixOf ([] : List Char) then some ([], []) else none
  | c :: cs =>
    if pat.isPrefixOf (c :: cs) then
      some ([], (c :: cs).drop pat.length)
    else
      match splitFirst pat cs with
      | some (pre, post) => some (c :: pre, post)
      | none => none

/-- `pat` occurs as a contiguous substring of `s`. -/
def occursIn (pat s : List Char) : Prop :=
  ∃ a b, s = a ++ pat ++ b

theorem splitFirst_sound {pat s pre post : List Char}
    (h : splitFirst pat s = some (pre, post)) : s = pre ++ pat ++ post := by
  induction s generalizing pre post with
  | nil =>
    unfold splitFirst at h
    by_cases hp : pat.isPrefixOf ([] : List Char)
    · have hpat : pat = [] := by
        simpa using (List.isPrefixOf_iff_prefix.mp hp)
      rw [if_pos hp] at h
      obtain ⟨h1, h2⟩ := Prod.mk.injEq .. ▸ Option.some.injEq .. ▸ h
      simp [← h1, ← h2, hpat]
    · rw [if_neg hp] at h
      exact absurd h (by simp)
  | cons c cs ih =>
    unfold splitFirst at h
    by_cases hp : pat.isPrefixOf (c :: cs)
    · obtain ⟨t, ht⟩ := List.isPrefixOf_iff_prefix.mp hp
      rw [if_pos hp] at h
      have h1 : pre = [] ∧ (c :: cs).drop pat.length = post := by
        constructor
        · exact congrArg Prod.fst (Option.some.inj h) |>.symm
        · exact congrArg Prod.snd (Option.some.inj h)
      have hdrop : (c :: cs).drop pat.length = t := by
        rw [← ht, List.drop_left]
      rw [h1.1, ← h1.2, hdrop, List.nil_append, ht]
    · rw [if_neg hp] at h
      cases hrec : splitFirst pat cs with
      | none => rw [hrec] at h; exact absurd h (by simp)
      | some pq =>
        obtain ⟨p, q⟩ := pq
        rw [hrec] at h
        have h1 : c :: p = pre ∧ q = post := by
          constructor
          · exact congrArg Prod.fst (Option.some.inj h)
          · exact congrArg Prod.snd (Option.some.inj h)
        rw [← h1.1, ← h1.2]
        have := @ih p q hrec
        rw [List.cons_append, List.cons_append, ← this]

theorem splitFirst_none {pat s : List Char}
    (h : splitFirst pat s = none) : ¬ occursIn pat s := by
  induction s with
  | nil =>
    unfold splitFirst at h
    by_cases hp : pat.isPrefixOf ([] : List Char)
    · rw [if_pos hp] at h; exact absurd h (by simp)
    · intro ⟨a, b, hab⟩
      have ha : a = [] := by
        cases a with
        | nil => rfl
        | cons x xs => exact absurd hab.symm (by simp)
      have hpat : pat = [] := by
        rw [ha, List.nil_append] at hab
        cases pat with
        | nil => rfl
        | cons x xs => exact absurd hab.symm (by simp)
      exact hp (List.isPrefixOf_iff_prefix.mpr (by simp [hpat]))
  | cons c cs ih =>
    unfold splitFirst at h
    by_cases hp : pat.isPrefixOf (c :: cs)
    · rw [if_pos hp] at h; exact absurd h (by simp)
    · rw [if_neg hp] at h
      cases hrec : splitFirst pat cs with
      | some pq => rw [hrec] at h; cases pq; exact absurd h (by simp)
      | none =>
        intro ⟨a, b, hab⟩
        cases a with
        | nil =>
          refine hp (List.isPrefixOf_iff_prefix.mpr ⟨b, ?_⟩)
          simpa using hab.symm
        | cons a0 a' =>
          have hcs : cs = a' ++ pat ++ b := by
            have h2 := hab
            rw [List.cons_append, List.cons_append] at h2
            exact (List.cons.inj h2).2
          exact (ih hrec) ⟨a', b, hcs⟩

theorem splitFirst_min {pat s pre post : List Char}
    (h : splitFirst pat s = some (pre, post)) :
    ∀ a b, s = a ++ pat ++ b → pre.length ≤ a.length := by
  induction s generalizing pre post with
  | nil =>
    intro a b hab
    unfold splitFirst at h
    by_cases hp : pat.isPrefixOf ([] : List Char)
    · rw [if_pos hp] at h
      have : pre = [] := (congrArg Prod.fst (Option.some.inj h)).symm
      simp [this]
    · rw [if_neg hp] at h; exact absurd h (by simp)
  | cons c cs ih =>
    intro a b hab
    unfold splitFirst at h
    by_cases hp : pat.isPrefixOf (c :: cs)
    · rw [if_pos hp] at h
      have : pre = [] := (congrArg Prod.fst (Option.some.inj h)).symm
      simp [this]
    · rw [if_neg hp] at h
      cases hrec : splitFirst pat cs with
      | none => rw [hrec] at h; exact absurd h (by simp)
      | some pq =>
        obtain ⟨p, q⟩ := pq
        rw [hrec] at h
        have hpre : c :: p = pre := congrArg Prod.fst (Option.some.inj h)
        cases a with
        | nil =>
          exfalso
          refine hp (List.isPrefixOf_iff_prefix.mpr ⟨b, ?_⟩)
          simpa using hab.symm
        | cons a0 a' =>
          have hcs : cs = a' ++ pat ++ b := by
            have h2 := hab
            rw [List.cons_append, List.cons_append] at h2
            exact (List.cons.inj h2).2
          have := ih hrec a' b hcs
          rw [← hpre]
          simpa using Nat.succ_le_succ this

theorem splitFirst_eq_of_first {pat s pre post : List Char}
    (hs : s = pre ++ pat ++ post)
    (hmin : ∀ a b, s = a ++ pat ++ b → pre.length ≤ a.length) :
    splitFirst pat s = some (pre, post) := by
  cases hsf : splitFirst pat s with
  | none => exact absurd ⟨pre, post, hs⟩ (splitFirst_none hsf)
  | some pq =>
    obtain ⟨p, q⟩ := pq
    have hsound := splitFirst_sound hsf
    have h1 : p.length ≤ pre.length := splitFirst_min hsf pre post hs
    have h2 : pre.length ≤ p.length := hmin p q hsound
    have hlen : p.length = pre.length := Nat.le_antisymm h1 h2
    have heq : p = pre ∧ pat ++ q = pat ++ post := by
      apply List.append_inj
      · rw [List.append_assoc] at hsound hs
        rw [← hsound]
        exact hs
      · exact hlen
    have hq : q = post := by
      have := heq.2
      exact List.append_cancel_left this
    rw [heq.1, hq]

theorem occursIn_isSome {pat s : List Char} :
    occursIn pat s ↔ (splitFirst pat s).isSome := by
  constructor
  · intro hocc
    cases hsf : splitFirst pat s with
    | none => exact absurd hocc (splitFirst_none hsf)
    | some pq => simp
  · intro hsome
    cases hsf : splitFirst pat s with
    | none => rw [hsf] at hsome; simp at hsome
    | some pq =>
      obtain ⟨p, q⟩ := pq
      exact ⟨p, q, splitFirst_sound hsf⟩

/-- If a pattern extending `pat` occurs in `s`, so does `pat`. -/
theorem occursIn_of_occursIn_append {pat ext s : List Char}
    (h : occursIn (pat ++ ext) s) : occursIn pat s := by
  obtain ⟨a, b, hab⟩ := h
  exact ⟨a, ext ++ b, by rw [hab]; simp⟩

/-- Dropping a run of characters satisfying `p` from the front. -/
theorem dropWhile_append_of_all {p : Char → Bool} {ws l : List Char}
    (h : ∀ c ∈ ws, p c = true) :
    List.dropWhile p (ws ++ l) = List.dropWhile p l := by
  induction ws with
  | nil => simp
  | cons c cs ih =>
    have hc : p c = true := h c (by simp)
    have hcs : ∀ c' ∈ cs, p c' = true := fun c' hc' => h c' (by simp [hc'])
    simp [List.dropWhile, hc, ih hcs]

theorem dropWhile_eq_self_of_head {p : Char → Bool} {l : List Char}
    (h : ∀ c, l.head? = some c → p c = false) :
    List.dropWhile p l = l := by
  cases l with
  | nil => simp
  | cons c cs =>
    have := h c (by simp)
    simp [List.dropWhile, this]

namespace GenerateAll

/-!
Embedding of `recommend_base/base/generate_all.py`.

`extract_code_block(text, language)` uses `re.search` with
`re.DOTALL` on
* `rf"```{re.escape(language)}\s*(.*?)(```|$)"` when a language is given,
* `r"```[a-zA-Z0-9_+-]*\s*(.*?)(```|$)"` otherwise,
returning `m.group(1).strip()` on a match and `text.strip()` otherwise.

Because the trailing alternative `(```|$)` always succeeds (the lazy
group can extend to the end of the input), the regex matches exactly at
the first occurrence of the literal opening; the greedy tag run
`[a-zA-Z0-9_+-]*` and whitespace run `\s*` never backtrack, and the
lazy group stops at the first following triple backquote, or at the end
of input when there is none.  The embedding realises exactly that
semantics via `splitFirst`, `dropWhile`, and `pyStrip`.
-/

/-- The regex class `[a-zA-Z0-9_+-]` of fence language tags. -/
def isTagChar (c : Char) : Bool :=
  c.isAlpha || c.isDigit || c = '_' || c = '+' || c = '-'

/-- Interior of the lazy group `(.*?)(```|$)`: everything up to the
first closing fence, or the whole remainder when no fence follows. -/
def lazyInterior (w : List Char) : List Char :=
  match splitFirst fence3 w with
  | some (interior, _) => interior
  | none => w

/-- `extract_code_block` from `generate_all.py` (on character lists). -/
def extract_code_block (text : List Char) (language : Option (List Char)) : List Char :=
  match language with
  | some lang =>
    match splitFirst (fence3 ++ lang) text with
    | some (_, u) => pyStrip (lazyInterior (u.dropWhile isPySpace))
    | none => pyStrip text
  | none =>
    match splitFirst fence3 text with
    | some (_, u) => pyStrip (lazyInterior ((u.dropWhile isTagChar).dropWhile isPySpace))
    | none => pyStrip text

/-- The filesystem: a flat map from paths to file contents.  Directory
creation (`ensure_dir` / `Path.mkdir(parents=True, exist_ok=True)`) is
a no-op on this model. -/
def FS : Type := String → Option String

/-- `Path.write_text`: create or overwrite the file at `path`. -/
def write_text (fs : FS) (path content : String) : FS :=
  fun p => if p = path then some content else fs p

/-- String-level wrapper of `extract_code_block`. -/
def extract_code_block_str (text : String) (language : Option String) : String :=
  ⟨extract_code_block text.data (language.map String.data)⟩

/--
`generate_api(feature_id, cfg)`: renders the prompt from the configured
input documents, calls the generation service, and persists the
extracted python block.  The prompt rendering and the network call
(`call_llm`) are external I/O; the embedding is parameterised by `raw`,
the text returned by the generation service for this artifact.
-/
def generate_api (fs : FS) (feature_id : String) (raw : String) : FS :=
  write_text fs ("generated/" ++ feature_id ++ "/api/" ++ feature_id ++ "_api.py")
    (extract_code_block_str raw (some "python"))

/-- `generate_ui`, analogous to `generate_api` (python block). -/
def generate_ui (fs : FS) (feature_id : String) (raw : String) : FS :=
  write_text fs ("generated/" ++ feature_id ++ "/ui/" ++ feature_id ++ "_ui.py")
    (extract_code_block_str raw (some "python"))

/-- `generate_test`, analogous to `generate_api` (python block). -/
def generate_test (fs : FS) (feature_id : String) (raw : String) : FS :=
  write_text fs ("generated/" ++ feature_id ++ "/test/" ++ feature_id ++ "_test.py")
    (extract_code_block_str raw (some "python"))

/-- `generate_db`: persists the extracted sql block; note the output
file name is `<feature_id>_schema.sql`. -/
def generate_db (fs : FS) (feature_id : String) (raw : String) : FS :=
  write_text fs ("generated/" ++ feature_id ++ "/db/" ++ feature_id ++ "_schema.sql")
    (extract_code_block_str raw (some "sql"))

end GenerateAll

namespace SsotGen

/-!
Embedding of `recommend_base/generate_ssot_from_feature_spec.py`.

`extract_block(text)` uses `re.search` with `re.DOTALL` on
`r"```[a-zA-Z0-9_+-]*\s*(.*?)```"`, returning `m.group(1).strip()` on a
match and `text.strip()` otherwise.  Unlike `extract_code_block`, the
closing fence is mandatory: when the first opening fence is never
closed the search fails (the tag and whitespace runs contain no
backquote, so no backtracking and no later starting position can
succeed either) and the whole trimmed text is returned.
-/

/-- `extract_block` from `generate_ssot_from_feature_spec.py`
(on character lists). -/
def extract_block (text : List Char) : List Char :=
  match splitFirst fence3 text with
  | some (_, u) =>
    match splitFirst fence3 ((u.dropWhile GenerateAll.isTagChar).dropWhile isPySpace) with
    | some (interior, _) => pyStrip interior
    | none => pyStrip text
  | none => pyStrip text

/-- String-level wrapper of `extract_block`. -/
def extract_block_str (text : String) : String :=
  ⟨extract_block text.data⟩

/-- `save_yaml(path, data)`: serialize and write, creating parent
directories as needed (a no-op on the flat filesystem model).  The
serializer `yaml.safe_dump` is external and deterministic; it is the
`dump` parameter. -/
def save_yaml {α : Type} (dump : α → String) (fs : GenerateAll.FS) (path : String)
    (data : α) : GenerateAll.FS :=
  GenerateAll.write_text fs path (dump data)

/-- `save_json(path, data)`: as `save_yaml`, with `json.dumps`. -/
def save_json {α : Type} (dump : α → String) (fs : GenerateAll.FS) (path : String)
    (data : α) : GenerateAll.FS :=
  GenerateAll.write_text fs path (dump data)

end SsotGen

namespace FeatureConfigLoader

/-!
Embedding of `recommend_base/base/get_feature_config.py`.

The index file on disk is modelled by `Option (SsotIndex α)`: `none`
when `ssot_index.yaml` does not exist, `some idx` otherwise (`α` is the
type of one feature-config block; the loader treats it as opaque).
The YAML mapping under the top-level `features` key is an association
list; `index.get("features", {})` defaults to the empty mapping.
The source performs no filesystem writes on any path, so the embedding
is a pure function into `Except`.
-/

/-- The parsed `ssot_index.yaml` document. -/
structure SsotIndex (α : Type) where
  features? : Option (List (String × α))

/-- The two exceptions the loader can raise. -/
inductive ConfigError where
  | fileNotFoundError
  | keyError
  deriving DecidableEq

/-- `load_ssot_index()`: raise `FileNotFoundError` when the index file
is absent, return the parsed document otherwise. -/
def load_ssot_index {α : Type} (disk : Option (SsotIndex α)) :
    Except ConfigError (SsotIndex α) :=
  match disk with
  | none => .error .fileNotFoundError
  | some idx => .ok idx

/-- `get_feature_config(feature_id)`: look the identifier up in the
`features` mapping, raising `KeyError` when absent. -/
def get_feature_config {α : Type} (disk : Option (SsotIndex α)) (feature_id : String) :
    Except ConfigError α :=
  match load_ssot_index disk with
  | .error e => .error e
  | .ok index =>
    match (index.features?.getD []).lookup feature_id with
    | none => .error .keyError
    | some cfg => .ok cfg

end FeatureConfigLoader

namespace LoginApi

/-!
Embedding of `recommend_base/base/generated/login/api/login_api.py`.

The `tbl_member` table declares `email` unique, so the database is
modelled as a partial map from email to `Member` row;
`select(Member).where(Member.email == req.email)` with
`scalar_one_or_none()` is the map lookup, and a committed ORM update is
a functional override at that email.  `bcrypt.checkpw` is an external
pure predicate and is a parameter `checkpw password stored_hash`.
`datetime.utcnow()` is the parameter `now`.  JWT encoding is external;
a token is modelled by its payload.
-/

/-- Business-rule constants from the source. -/
def MAX_FAIL_COUNT : Nat := 5

def FAIL_ERROR_CODE : String := "LOGIN_FAILED"

def LOCK_ERROR_CODE : String := "ACCOUNT_LOCKED"

def MISSING_REQUIRED_FIELD : String := "MISSING_REQUIRED_FIELD"

def INVALID_EMAIL_FORMAT : String := "INVALID_EMAIL_FORMAT"

def INVALID_PASSWORD_FORMAT : String := "INVALID_PASSWORD_FORMAT"

def JWT_EXPIRE_SECONDS : Nat := 3600

/-- One row of `ssot.tbl_member`. -/
structure Member where
  user_id : String
  email : String
  password_hash : String
  fail_count : Nat
  is_locked : Bool
  locked_at : Option Nat
  created_at : Nat
  updated_at : Nat
  deriving DecidableEq

/-- The member table, keyed by the unique `email` column. -/
def Database : Type := String → Option Member

/-- Committed update of the row with the given email. -/
def dbSet (db : Database) (email : String) (m : Member) : Database :=
  fun e => if e = email then some m else db e

/-- The JWT payload built by `create_access_token`. -/
structure TokenPayload where
  sub : String
  iat : Nat
  exp : Nat
  deriving DecidableEq

/-- `create_access_token(user_id)`. -/
def create_access_token (user_id : String) (now : Nat) : TokenPayload :=
  { sub := user_id, iat := now, exp := now + JWT_EXPIRE_SECONDS }

/-- A request that passed pydantic validation. -/
structure LoginRequest where
  email : String
  password : String

/-- The JSON response produced for `/api/login_api`, after the
`HTTPException` handler has mapped exceptions to
`{"errorCode": ...}` bodies. -/
inductive ApiResponse where
  | success (accessToken : TokenPayload) (userId : String)
  | failure (status : Nat) (errorCode : String)
  deriving DecidableEq

/-- The `login_api` handler body (after request validation): returns
the response and the database as left by the committed updates. -/
def login_api (checkpw : String → String → Bool) (now : Nat)
    (db : Database) (req : LoginRequest) : ApiResponse × Database :=
  match db req.email with
  | none => (.failure 401 FAIL_ERROR_CODE, db)
  | some member =>
    if member.is_locked then
      (.failure 401 LOCK_ERROR_CODE, db)
    else if checkpw req.password member.password_hash = false then
      let fc := member.fail_count + 1
      if fc ≥ MAX_FAIL_COUNT then
        (.failure 401 LOCK_ERROR_CODE,
          dbSet db req.email
            { member with fail_count := fc, is_locked := true, locked_at := some now })
      else
        (.failure 401 FAIL_ERROR_CODE,
          dbSet db req.email { member with fail_count := fc })
    else
      let db' :=
        if member.fail_count != 0 || member.is_locked then
          dbSet db req.email
            { member with fail_count := 0, is_locked := false, locked_at := none,
                          updated_at := now }
        else db
      (.success (create_access_token member.user_id now) member.user_id, db')

/-- Sequential submissions to the endpoint: responses in order and the
final database. -/
def login_iter (checkpw : String → String → Bool) (now : Nat) :
    Database → List LoginRequest → List ApiResponse × Database
  | db, [] => ([], db)
  | db, r :: rs =>
    let step := login_api checkpw now db r
    let rest := login_iter checkpw now step.2 rs
    (step.1 :: rest.1, rest.2)

end LoginApi

namespace LoginApi

/-!
Request validation for `/api/login_api` (`LoginRequest` and its
pydantic `field_validator`s).

The framework dispatch: pydantic v2 validates each field, skipping a
field's validator entirely when the field is absent (a `missing`
error is recorded instead, so the validators' `if v is None` branches
are dead code and `MISSING_REQUIRED_FIELD` never fires), accumulates
the errors of both fields, and raises one `ValidationError` that
FastAPI wraps as `RequestValidationError` and answers with its own
HTTP 422 handler.  The `value_error_handler` the source installs for
`ValueError` is therefore unreachable for body validation, and the
400 `{"errorCode": ...}` responses it describes — and that the
generated test-suite `login_test.py` asserts — are never produced.
`EmailStr` is an external format validator and is the parameter
`emailOk`; `emailFormatOk` below is a concrete stand-in used for
evaluation.
-/

/-- The regex
`(?=.*[A-Z])(?=.*[a-z])(?=.*\d)(?=.*[!@#$%^&*]).{8,}` under
`fullmatch` (no `DOTALL`): the final `.{8,}` must cover the whole
string, so no newline may occur and the length is at least 8; the four
lookaheads then each require one character class to occur.  `\d` is
modelled as the ASCII digits. -/
def password_pattern_ok (s : String) : Bool :=
  s.data.all (fun c => c ≠ '\n') &&
  decide (8 ≤ s.length) &&
  s.data.any (fun c => 'A' ≤ c && c ≤ 'Z') &&
  s.data.any (fun c => 'a' ≤ c && c ≤ 'z') &&
  s.data.any Char.isDigit &&
  s.data.any (fun c =>
    c = '!' || c = '@' || c = '#' || c = '$' || c = '%' || c = '^' || c = '&' || c = '*')

/-- The `validate_email` field validator. -/
def validate_email (emailOk : String → Bool) (v : Option String) : Except String String :=
  match v with
  | none => .error MISSING_REQUIRED_FIELD
  | some s =>
    if s.length > 255 then .error INVALID_EMAIL_FORMAT
    else if emailOk s = false then .error INVALID_EMAIL_FORMAT
    else .ok s

/-- The `validate_password` field validator. -/
def validate_password (v : Option String) : Except String String :=
  match v with
  | none => .error MISSING_REQUIRED_FIELD
  | some s =>
    if s.length < 8 then .error INVALID_PASSWORD_FORMAT
    else if password_pattern_ok s = false then .error INVALID_PASSWORD_FORMAT
    else .ok s

/-- A concrete stand-in for the external `EmailStr` validator, used to
evaluate the theorems on concrete requests: exactly one `@`, non-empty
local part, domain containing a dot neither first nor last, no
whitespace. -/
def emailFormatOk (s : String) : Bool :=
  match splitFirst "@".data s.data with
  | none => false
  | some (lhs, dom) =>
    !lhs.isEmpty && !dom.isEmpty && !dom.contains '@' && dom.contains '.' &&
    !(dom.head? == some '.') && !(dom.getLast? == some '.') &&
    s.data.all (fun c => !isPySpace c)

/-- One entry of the `RequestValidationError` detail array for a
field: pydantic v2 reports an absent required field as `missing`
(without calling the field validator), and wraps a `ValueError`
raised inside a `@field_validator` as a value-error entry carrying
its message. -/
inductive FieldError where
  | missing
  | valueError (msg : String)
  deriving DecidableEq

/-- The errors pydantic v2 collects for one field: `missing` when the
field is absent from the body (its validator never runs), otherwise
whatever `ValueError` the field validator raises. -/
def field_errors (validator : Option String → Except String String)
    (v? : Option String) : List FieldError :=
  match v? with
  | none => [.missing]
  | some v =>
    match validator (some v) with
    | .error code => [.valueError code]
    | .ok _ => []

/-- A `/api/login_api` HTTP response: the framework's 422
`RequestValidationError` response listing the accumulated per-field
errors, or a response of the `login_api` handler. -/
inductive LoginHttpResponse where
  | validationFailure (errors : List (String × FieldError))
  | handled (r : ApiResponse)
  deriving DecidableEq

/-- The HTTP status of a `/api/login_api` response. -/
def loginStatusOf : LoginHttpResponse → Nat
  | .validationFailure _ => 422
  | .handled (.success _ _) => 200
  | .handled (.failure st _) => st

/-- The full `/api/login_api` request pipeline under the
FastAPI/pydantic-v2 dispatch: pydantic validates both fields and
accumulates their errors (a missing field contributes `missing`
without running its validator); any error yields the framework's 422
response before the handler runs and before any storage access;
otherwise the `login_api` handler body runs on the validated
request. -/
def login_endpoint (emailOk : String → Bool) (checkpw : String → String → Bool)
    (now : Nat) (db : Database) (email? password? : Option String) :
    LoginHttpResponse × Database :=
  let errs :=
    (field_errors (validate_email emailOk) email?).map (fun e => ("email", e)) ++
    (field_errors validate_password password?).map (fun e => ("password", e))
  match email?, password? with
  | some email, some password =>
    if errs.isEmpty then
      let step := login_api checkpw now db { email := email, password := password }
      (.handled step.1, step.2)
    else (.validationFailure errs, db)
  | _, _ => (.validationFailure errs, db)

end LoginApi

namespace JwtServer

/-!
Embedding of `jwt_test/fastapi_server.py`.

JWT verification (`jwt.decode` with the configured secret and
algorithm) is external; it is the parameter
`decode : String → DecodeResult`, and a decoded payload is represented
by its `sub` claim (the only key the server reads).  The FastAPI
framework behaviour for a missing required header or an invalid
request body is its documented request-validation failure, HTTP 422,
modelled by `RecommendResponse.unprocessable`.
-/

/-- Outcome of `jwt.decode` on a presented token. -/
inductive DecodeResult where
  | expiredSignatureError
  | invalidTokenError
  | decoded (sub? : Option String)
  deriving DecidableEq

/-- The authenticated caller extracted from the token. -/
structure CurrentUser where
  mbr_id : String
  deriving DecidableEq

/-- `SAFE_QUESTION_REGEX` character class
`[ㄱ-ㅎ가-힣a-zA-Z0-9\s.,!?()\[\]\-_:+/\'\"@#&]`. -/
def isSafeQuestionChar (c : Char) : Bool :=
  (0x3131 ≤ c.toNat && c.toNat ≤ 0x314E) ||
  (0xAC00 ≤ c.toNat && c.toNat ≤ 0xD7A3) ||
  c.isAlpha || c.isDigit || isPySpace c ||
  c = '.' || c = ',' || c = '!' || c = '?' || c = '(' || c = ')' ||
  c = '[' || c = ']' || c = '-' || c = '_' || c = ':' || c = '+' ||
  c = '/' || c = '\'' || c = '"' || c = '@' || c = '#' || c = '&'

/-- `QuestionRequest`: `constr(strip_whitespace=True, min_length=1,
max_length=300)` followed by the `validate_question` allow-list check.
Returns the validated (stripped) question, or `none` when pydantic
rejects the body (a 422 at the framework level). -/
def validate_question (q : String) : Option String :=
  let v : String := ⟨pyStrip q.data⟩
  if v.length < 1 then none
  else if v.length > 300 then none
  else if v.data.all isSafeQuestionChar then some v
  else none

/-- `get_current_user`: parse the `Authorization: Bearer <JWT>` header,
verify the token, and extract `sub`.  Errors are
`(status, detail)` pairs raised as `HTTPException`s. -/
def get_current_user (decode : String → DecodeResult) (authorization : String) :
    Except (Nat × String) CurrentUser :=
  if "Bearer ".data.isPrefixOf authorization.data = false then
    .error (401, "Invalid Authorization header")
  else
    let token : String := ⟨pyStrip (authorization.drop 7).data⟩
    match decode token with
    | .expiredSignatureError => .error (401, "Token expired")
    | .invalidTokenError => .error (401, "Invalid token")
    | .decoded sub? =>
      match sub? with
      | none => .error (401, "Invalid token payload")
      | some s =>
        if s.isEmpty then .error (401, "Invalid token payload")
        else .ok { mbr_id := s }

/-- Regex `\w` for the word boundaries of the SQL-keyword denylist.
Unicode word characters are modelled on the character ranges the
question validator admits (ASCII alphanumerics, underscore, and the
Korean ranges of the allow-list). -/
def isWordChar (c : Char) : Bool :=
  c.isAlpha || c.isDigit || c = '_' ||
  (0x3131 ≤ c.toNat && c.toNat ≤ 0x314E) ||
  (0xAC00 ≤ c.toNat && c.toNat ≤ 0xD7A3)

/-- Case-insensitive literal prefix: `some rest` when the lowercase
keyword `kw` matches the head of `s` up to ASCII case. -/
def ciPrefixRest : List Char → List Char → Option (List Char)
  | [], s => some s
  | _ :: _, [] => none
  | k :: ks, c :: cs => if c.toLower = k then ciPrefixRest ks cs else none

/-- `\b` holds before the current position. -/
def wordBoundaryOk (before : Option Char) : Bool :=
  match before with
  | none => true
  | some c => !isWordChar c

/-- The keyword matches at the current position with `\b` on both
sides. -/
def kwMatchesHere (kw : List Char) (before : Option Char) (s : List Char) : Bool :=
  wordBoundaryOk before &&
    (match ciPrefixRest kw s with
     | some [] => true
     | some (c :: _) => !isWordChar c
     | none => false)

/-- `re.search` of `(?i)\b<kw>\b` over the suffixes of the input;
`before` is the character just before the current position. -/
def kwSearchFrom (kw : List Char) : Option Char → List Char → Bool
  | before, [] => kwMatchesHere kw before []
  | before, c :: cs => kwMatchesHere kw before (c :: cs) || kwSearchFrom kw (some c) cs

/-- The SQL keywords of the first `DANGEROUS_PATTERNS` regex. -/
def DANGEROUS_KEYWORDS : List (List Char) :=
  ["select".data, "insert".data, "update".data, "delete".data,
   "drop".data, "truncate".data, "union".data, "exec".data]

/-- First denylist regex:
`(?i)\b(select|insert|update|delete|drop|truncate|union|exec)\b`. -/
def hasSqlKeyword (q : String) : Bool :=
  DANGEROUS_KEYWORDS.any (fun kw => kwSearchFrom kw none q.data)

/-- Second denylist regex: `[;&|`$]`. -/
def hasDangerChar (q : String) : Bool :=
  q.data.any (fun c => c = ';' || c = '&' || c = '|' || c = backquote || c = '$')

/-- `detect_dangerous_pattern`: `true` means a 400 is raised. -/
def detect_dangerous_pattern (q : String) : Bool :=
  hasSqlKeyword q || hasDangerChar q

/-- `sanitize_question`: keep exactly the characters the single-char
regex match admits, i.e. the allow-list characters. -/
def sanitize_question (q : String) : String :=
  ⟨q.data.filter isSafeQuestionChar⟩

/-- One escaped character of `json.dumps` (with
`ensure_ascii=False`). -/
def jsonEscapeChar (c : Char) : List Char :=
  if c = '"' then ['\\', '"']
  else if c = '\\' then ['\\', '\\']
  else if c = '\n' then ['\\', 'n']
  else if c = '\t' then ['\\', 't']
  else if c = '\r' then ['\\', 'r']
  else if c = Char.ofNat 8 then ['\\', 'b']
  else if c = Char.ofNat 12 then ['\\', 'f']
  else if c.toNat < 0x20 then
    ['\\', 'u', '0', '0',
      (if c.toNat / 16 < 10 then Char.ofNat (48 + c.toNat / 16) else Char.ofNat (87 + c.toNat / 16)),
      (if c.toNat % 16 < 10 then Char.ofNat (48 + c.toNat % 16) else Char.ofNat (87 + c.toNat % 16))]
  else [c]

/-- `json.dumps({"question": q}, ensure_ascii=False)`. -/
def json_dumps_question (q : String) : String :=
  ⟨"\x7b\"question\": \"".data ++ (q.data.map jsonEscapeChar).flatten ++ "\"\x7d".data⟩

/-- The JSON body of a successful `/recommend` response. -/
structure RecommendBody where
  mbr_id : String
  question : String
  wrapped_question : String
  answer : String
  deriving DecidableEq

/-- A `/recommend` response: framework request-validation failure
(HTTP 422), an `HTTPException` (status, detail), or the 200 body. -/
inductive RecommendResponse where
  | unprocessable
  | failure (status : Nat) (detail : String)
  | ok (body : RecommendBody)
  deriving DecidableEq

/-- The HTTP status of a response. -/
def statusOf : RecommendResponse → Nat
  | .unprocessable => 422
  | .failure st _ => st
  | .ok _ => 200

/-- The `/recommend` endpoint body, given the authenticated user and
the validated question. -/
def recommend (user : CurrentUser) (question_raw : String) : RecommendResponse :=
  if detect_dangerous_pattern question_raw then
    .failure 400 "허용되지 않는 패턴이 포함된 질문입니다."
  else
    let question_safe := sanitize_question question_raw
    .ok { mbr_id := user.mbr_id
          question := question_safe
          wrapped_question := json_dumps_question question_safe
          answer := "[mbr_id=" ++ user.mbr_id ++ "] 님의 질문은 '" ++ question_safe
            ++ "' 입니다. (여기에 추천 로직 구현)" }

/-- The full `/recommend` request pipeline: FastAPI first validates
the declared parameters (required `Authorization` header, body shape,
`QuestionRequest` constraints) and answers 422 on failure; then the
`get_current_user` dependency runs; then the endpoint body. -/
def recommend_request (decode : String → DecodeResult)
    (authorization? question? : Option String) : RecommendResponse :=
  match authorization?, question? with
  | none, _ => .unprocessable
  | _, none => .unprocessable
  | some auth, some qraw =>
    match validate_question qraw with
    | none => .unprocessable
    | some q =>
      match get_current_user decode auth with
      | .error (st, d) => .failure st d
      | .ok user => recommend user q

end JwtServer

/-- The first code fence in `text`, if any, is closed: after the
greedy tag and whitespace runs of the opening fence another triple
backquote occurs.  (Vacuously true when `text` has no fence.) -/
def firstFenceClosed (text : List Char) : Bool :=
  match splitFirst fence3 text with
  | none => true
  | some (_, u) =>
    (splitFirst fence3 ((u.dropWhile GenerateAll.isTagChar).dropWhile isPySpace)).isSome

/-- C7: for every feature identifier not present in the `features`
mapping of the loaded index, `get_feature_config` fails with
`KeyError`, and when the index document is absent it fails with
`FileNotFoundError`.  The source performs no write on any path, so the
embedding is a pure function and "writes nothing" holds by
construction; the lookup result is the stated error in both cases. -/
theorem get_feature_config_errors {α : Type}
    (disk : Option (FeatureConfigLoader.SsotIndex α)) (feature_id : String) :
    (disk = none →
      FeatureConfigLoader.get_feature_config disk feature_id =
        .error .fileNotFoundError) ∧
    (∀ idx, disk = some idx →
      (idx.features?.getD []).lookup feature_id = none →
      FeatureConfigLoader.get_feature_config disk feature_id = .error .keyError) := by
  constructor
  · intro h
    subst h
    rfl
  · intro idx h hlook
    subst h
    simp [FeatureConfigLoader.get_feature_config, FeatureConfigLoader.load_ssot_index, hlook]

/-- Witness for C7: a concrete absent index and a concrete index whose
`features` mapping lacks the requested identifier. -/
theorem get_feature_config_errors_witness :
    FeatureConfigLoader.get_feature_config (α := Nat) none "login" =
      .error .fileNotFoundError ∧
    FeatureConfigLoader.get_feature_config (α := Nat)
      (some ⟨some [("login", 1)]⟩) "signup" = .error .keyError :=
  ⟨(get_feature_config_errors none "login").1 rfl,
   (get_feature_config_errors (some ⟨some [("login", 1)]⟩) "signup").2
     ⟨some [("login", 1)]⟩ rfl (by decide)⟩

/-- C8 counterexample: the db artifact of feature `login` is persisted
at `generated/login/db/login_schema.sql`, not at the claimed
`generated/login/db/login_db.sql` — the filename part is
`<feature-id>_schema.sql`, not `<feature-id>_<kind>.<ext>` for
kind `db`. -/
theorem generate_db_filename_counterexample :
    GenerateAll.generate_db (fun _ => none) "login" "CREATE TABLE t (x int);"
        "generated/login/db/login_db.sql" = none ∧
    GenerateAll.generate_db (fun _ => none) "login" "CREATE TABLE t (x int);"
        "generated/login/db/login_schema.sql" = some "CREATE TABLE t (x int);" := by
  constructor
  · decide
  · decide

/-- C8 amended: for kinds `api`, `ui`, `test` the artifact is persisted
at `generated/<feature-id>/<kind>/<feature-id>_<kind>.<ext>`, but for
kind `db` the filename is `<feature-id>_schema.sql` (directory still
`<feature-id>/db/`); in all four cases the write is an unconditional
overwrite of whatever the filesystem held at that path, and no other
path changes. -/
theorem generate_artifact_paths (fs : GenerateAll.FS) (fid raw : String) :
    (GenerateAll.generate_api fs fid raw
        ("generated/" ++ fid ++ "/api/" ++ fid ++ "_api.py") =
      some (GenerateAll.extract_code_block_str raw (some "python"))) ∧
    (GenerateAll.generate_ui fs fid raw
        ("generated/" ++ fid ++ "/ui/" ++ fid ++ "_ui.py") =
      some (GenerateAll.extract_code_block_str raw (some "python"))) ∧
    (GenerateAll.generate_test fs fid raw
        ("generated/" ++ fid ++ "/test/" ++ fid ++ "_test.py") =
      some (GenerateAll.extract_code_block_str raw (some "python"))) ∧
    (GenerateAll.generate_db fs fid raw
        ("generated/" ++ fid ++ "/db/" ++ fid ++ "_schema.sql") =
      some (GenerateAll.extract_code_block_str raw (some "sql"))) ∧
    (∀ p, p ≠ "generated/" ++ fid ++ "/api/" ++ fid ++ "_api.py" →
      GenerateAll.generate_api fs fid raw p = fs p) ∧
    (∀ p, p ≠ "generated/" ++ fid ++ "/db/" ++ fid ++ "_schema.sql" →
      GenerateAll.generate_db fs fid raw p = fs p) := by
  refine ⟨?_, ?_, ?_, ?_, ?_, ?_⟩
  · simp [GenerateAll.generate_api, GenerateAll.write_text]
  · simp [GenerateAll.generate_ui, GenerateAll.write_text]
  · simp [GenerateAll.generate_test, GenerateAll.write_text]
  · simp [GenerateAll.generate_db, GenerateAll.write_text]
  · intro p hp
    simp [GenerateAll.generate_api, GenerateAll.write_text, hp]
  · intro p hp
    simp [GenerateAll.generate_db, GenerateAll.write_text, hp]

/-- Witness for C8 (amended): a concrete regeneration over a
filesystem that already holds different content at the output path —
the old content is overwritten. -/
theorem generate_artifact_paths_witness :
    GenerateAll.generate_api (fun _ => some "OLD") "login" "```python\nnew code\n```"
        "generated/login/api/login_api.py" = some "new code" ∧
    GenerateAll.generate_api (fun _ => some "OLD") "login" "```python\nnew code\n```"
        "generated/login/ui/other.txt" = some "OLD" := by
  constructor
  · have h := (generate_artifact_paths (fun _ => some "OLD") "login"
      "```python\nnew code\n```").1
    have hpath : ("generated/" ++ "login" ++ "/api/" ++ "login" ++ "_api.py" : String) =
        "generated/login/api/login_api.py" := by decide
    rw [hpath] at h
    rw [h]
    decide
  · exact (generate_artifact_paths (fun _ => some "OLD") "login"
      "```python\nnew code\n```").2.2.2.2.1 "generated/login/ui/other.txt" (by decide)

/-- Overwriting a path twice with the same content equals writing it
once. -/
theorem write_text_idem (fs : GenerateAll.FS) (path content : String) :
    GenerateAll.write_text (GenerateAll.write_text fs path content) path content =
      GenerateAll.write_text fs path content := by
  funext p
  by_cases h : p = path <;> simp [GenerateAll.write_text, h]

/-- C9: regenerating the same (feature, kind) artifact from the same
generation-service response is idempotent — the artifact content is a
function of the feature id and the response text alone, so the second
run writes byte-identical content and the filesystem is unchanged by
the second run.  Likewise for the SSOT generator's `save_yaml` and
`save_json` with an unchanged document. -/
theorem regenerate_idempotent (fs : GenerateAll.FS) (fid raw : String)
    {α : Type} (dump : α → String) (path : String) (data : α) :
    GenerateAll.generate_api (GenerateAll.generate_api fs fid raw) fid raw =
      GenerateAll.generate_api fs fid raw ∧
    GenerateAll.generate_ui (GenerateAll.generate_ui fs fid raw) fid raw =
      GenerateAll.generate_ui fs fid raw ∧
    GenerateAll.generate_test (GenerateAll.generate_test fs fid raw) fid raw =
      GenerateAll.generate_test fs fid raw ∧
    GenerateAll.generate_db (GenerateAll.generate_db fs fid raw) fid raw =
      GenerateAll.generate_db fs fid raw ∧
    SsotGen.save_yaml dump (SsotGen.save_yaml dump fs path data) path data =
      SsotGen.save_yaml dump fs path data ∧
    SsotGen.save_json dump (SsotGen.save_json dump fs path data) path data =
      SsotGen.save_json dump fs path data := by
  refine ⟨?_, ?_, ?_, ?_, ?_, ?_⟩
  · exact write_text_idem ..
  · exact write_text_idem ..
  · exact write_text_idem ..
  · exact write_text_idem ..
  · exact write_text_idem ..
  · exact write_text_idem ..

/-- C5: when the response text contains no fenced block (no triple
backquote occurs anywhere), both extractors — `extract_code_block`
with or without a language argument, and `extract_block` — return the
whole input trimmed of leading and trailing whitespace. -/
theorem extract_fallback_no_fence (text : List Char)
    (h : ¬ occursIn fence3 text) :
    GenerateAll.extract_code_block text none = pyStrip text ∧
    (∀ lang, GenerateAll.extract_code_block text (some lang) = pyStrip text) ∧
    SsotGen.extract_block text = pyStrip text := by
  have hnone : splitFirst fence3 text = none := by
    cases hsf : splitFirst fence3 text with
    | none => rfl
    | some pq =>
      obtain ⟨p, q⟩ := pq
      exact absurd ⟨p, q, splitFirst_sound hsf⟩ h
  refine ⟨?_, ?_, ?_⟩
  · simp [GenerateAll.extract_code_block, hnone]
  · intro lang
    have hlang : splitFirst (fence3 ++ lang) text = none := by
      cases hsf : splitFirst (fence3 ++ lang) text with
      | none => rfl
      | some pq =>
        obtain ⟨p, q⟩ := pq
        exact absurd (occursIn_of_occursIn_append ⟨p, q, splitFirst_sound hsf⟩) h
    simp [GenerateAll.extract_code_block, hlang]
  · simp [SsotGen.extract_block, hnone]

/-- Witness for C5: a concrete fence-free response. -/
theorem extract_fallback_no_fence_witness :
    GenerateAll.extract_code_block "  plain answer \n".data none =
      pyStrip "  plain answer \n".data ∧
    GenerateAll.extract_code_block "  plain answer \n".data (some "python".data) =
      pyStrip "  plain answer \n".data ∧
    SsotGen.extract_block "  plain answer \n".data = pyStrip "  plain answer \n".data := by
  have h : ¬ occursIn fence3 "  plain answer \n".data := by
    intro hocc
    exact absurd (occursIn_isSome.mp hocc) (by decide)
  obtain ⟨h1, h2, h3⟩ := extract_fallback_no_fence "  plain answer \n".data h
  exact ⟨h1, h2 "python".data, h3⟩

/-- C6 counterexample: on the input `"```a"` — an opening fence that is
never closed — `extract_code_block(text, None)` returns the empty
string (its regex accepts end-of-input in place of the closing fence),
while `extract_block(text)` falls back to the whole trimmed text; the
two extractors therefore do not return the same string on every
input. -/
theorem extractors_differ_counterexample :
    GenerateAll.extract_code_block "```a".data none ≠
      SsotGen.extract_block "```a".data := by
  decide

/-- C6 amended: the two extractors agree on every input whose first
fenced block (if any) is closed; they differ only on inputs whose
first fence is left unclosed, where `extract_code_block` returns the
trimmed remainder after the opening fence and `extract_block` falls
back to the whole trimmed text. -/
theorem extractors_agree_of_closed (text : List Char)
    (h : firstFenceClosed text = true) :
    GenerateAll.extract_code_block text none = SsotGen.extract_block text := by
  unfold firstFenceClosed at h
  cases h1 : splitFirst fence3 text with
  | none =>
    simp [GenerateAll.extract_code_block, SsotGen.extract_block, h1]
  | some pu =>
    obtain ⟨p, u⟩ := pu
    rw [h1] at h
    have h' : (splitFirst fence3
        ((u.dropWhile GenerateAll.isTagChar).dropWhile isPySpace)).isSome = true := h
    cases h2 : splitFirst fence3 ((u.dropWhile GenerateAll.isTagChar).dropWhile isPySpace) with
    | none => rw [h2] at h'; simp at h'
    | some iq =>
      obtain ⟨interior, q⟩ := iq
      simp [GenerateAll.extract_code_block, SsotGen.extract_block,
        GenerateAll.lazyInterior, h1, h2]

/-- Witness for C6 (amended): a concrete input with a closed fence on
which both extractors return the same interior. -/
theorem extractors_agree_of_closed_witness :
    GenerateAll.extract_code_block "pre ```yaml\nk: v\n``` post".data none =
      SsotGen.extract_block "pre ```yaml\nk: v\n``` post".data :=
  extractors_agree_of_closed "pre ```yaml\nk: v\n``` post".data (by decide)

/-- C4: for every response text containing a fenced block whose opening
tag equals the expected language — `text = pre ++ "```" ++ lang ++ ws ++
body ++ "```" ++ post` with the opening `"```" ++ lang` occurring
nowhere earlier, `ws` the (maximal) whitespace run after the tag, and
the closing fence the first one after the tag — the extractor called
with that language returns exactly the block's interior, trimmed,
whatever `pre` and `post` contain. -/
theorem extract_code_block_tagged (text pre lang ws body post : List Char)
    (htext : text = pre ++ fence3 ++ lang ++ ws ++ body ++ fence3 ++ post)
    (hfirst : ∀ a b, text = a ++ (fence3 ++ lang) ++ b → pre.length ≤ a.length)
    (hws : ∀ c ∈ ws, isPySpace c = true)
    (hbody : body.head?.all (fun c => !isPySpace c) = true)
    (hclose : ∀ a b, body ++ fence3 ++ post = a ++ fence3 ++ b → body.length ≤ a.length) :
    GenerateAll.extract_code_block text (some lang) = pyStrip body := by
  have h1 : splitFirst (fence3 ++ lang) text =
      some (pre, ws ++ (body ++ fence3 ++ post)) := by
    apply splitFirst_eq_of_first
    · rw [htext]; simp [List.append_assoc]
    · intro a b hab
      exact hfirst a b hab
  have h2 : (ws ++ (body ++ fence3 ++ post)).dropWhile isPySpace =
      body ++ fence3 ++ post := by
    rw [dropWhile_append_of_all hws]
    apply dropWhile_eq_self_of_head
    intro c hc
    cases body with
    | nil =>
      have hcb : c = backquote := by
        simpa [fence3] using hc.symm
      rw [hcb]
      decide
    | cons b bs =>
      have hcb : c = b := by simpa using hc.symm
      have hb : isPySpace b = false := by simpa [Option.all] using hbody
      exact hcb ▸ hb
  have h3 : splitFirst fence3 (body ++ fence3 ++ post) = some (body, post) :=
    splitFirst_eq_of_first rfl hclose
  simp only [GenerateAll.extract_code_block, h1]
  rw [h2]
  simp only [GenerateAll.lazyInterior, h3]

/-- Witness for C4: a concrete response with prose on both sides of a
`python`-tagged block. -/
theorem extract_code_block_tagged_witness :
    GenerateAll.extract_code_block "Sure!\n```python\nprint(1)\n```\nEnjoy.".data
      (some "python".data) = "print(1)".data := by
  have h := extract_code_block_tagged
    "Sure!\n```python\nprint(1)\n```\nEnjoy.".data
    "Sure!\n".data "python".data "\n".data "print(1)\n".data "\nEnjoy.".data
    (by decide)
    (@splitFirst_min (fence3 ++ "python".data)
      "Sure!\n```python\nprint(1)\n```\nEnjoy.".data
      "Sure!\n".data "\nprint(1)\n```\nEnjoy.".data (by decide))
    (by decide)
    (by decide)
    (@splitFirst_min fence3 ("print(1)\n".data ++ fence3 ++ "\nEnjoy.".data)
      "print(1)\n".data "\nEnjoy.".data (by decide))
  rw [h]
  decide

/-- C3: the claim states the code's intent — the installed
`value_error_handler` describes exactly these 400 `errorCode`
responses and the generated test-suite (`login_test.py`
TC_LOGIN_003/006/007/008) asserts them — but not the code's
behaviour: under the FastAPI/pydantic-v2 dispatch the validator
`ValueError`s are wrapped into a `RequestValidationError` answered
HTTP 422 by the framework's own handler, a missing field never
reaches its validator (pydantic records `missing`, so
`MISSING_REQUIRED_FIELD` never fires), and errors accumulate across
fields.  At the claim's inputs the endpoint returns 422 with the
accumulated detail entries and never a 400 `errorCode` body; the
database is untouched in every such case. -/
theorem login_validation_dispatch_code_bug :
    (LoginApi.login_endpoint LoginApi.emailFormatOk (fun _ _ => true) 0 (fun _ => none)
        (some "user1@example.com") (some "short")).1 =
      .validationFailure [("password", .valueError LoginApi.INVALID_PASSWORD_FORMAT)] ∧
    (LoginApi.login_endpoint LoginApi.emailFormatOk (fun _ _ => true) 0 (fun _ => none)
        (some "invalid-email-format") (some "Pass@word1")).1 =
      .validationFailure [("email", .valueError LoginApi.INVALID_EMAIL_FORMAT)] ∧
    (LoginApi.login_endpoint LoginApi.emailFormatOk (fun _ _ => true) 0 (fun _ => none)
        none (some "Pass@word1")).1 =
      .validationFailure [("email", .missing)] ∧
    (LoginApi.login_endpoint LoginApi.emailFormatOk (fun _ _ => true) 0 (fun _ => none)
        (some "user1@example.com") none).1 =
      .validationFailure [("password", .missing)] ∧
    (LoginApi.login_endpoint LoginApi.emailFormatOk (fun _ _ => true) 0 (fun _ => none)
        (some "invalid-email-format") (some "short")).1 =
      .validationFailure [("email", .valueError LoginApi.INVALID_EMAIL_FORMAT),
        ("password", .valueError LoginApi.INVALID_PASSWORD_FORMAT)] ∧
    LoginApi.loginStatusOf (LoginApi.login_endpoint LoginApi.emailFormatOk
        (fun _ _ => true) 0 (fun _ => none) (some "user1@example.com") (some "short")).1 =
      422 ∧
    (422 : Nat) ≠ 400 ∧
    (LoginApi.login_endpoint LoginApi.emailFormatOk (fun _ _ => true) 0 (fun _ => none)
        (some "user1@example.com") (some "short")).2 "user1@example.com" = none := by
  refine ⟨by decide, by decide, by decide, by decide, by decide, by decide, by decide,
    by decide⟩

/-- Reading back the row just committed. -/
theorem dbSet_same (db : LoginApi.Database) (e : String) (m : LoginApi.Member) :
    LoginApi.dbSet db e m e = some m := by
  simp [LoginApi.dbSet]

/-- C1: lockout at threshold 5.  For every account row with a correct
stored password (`checkpw goodPw hash`), failure counter 0 and not
locked, five consecutive wrong-password submissions return
`LOGIN_FAILED` (401) four times and then `ACCOUNT_LOCKED` (401) on the
fifth, leaving the row locked with `fail_count = 5` and
`locked_at = now`; afterwards every submission for that account — with
any password, including the correct one — returns `ACCOUNT_LOCKED`
(401) and leaves the database unchanged, so the lock persists until it
is cleared out-of-band; and a successful login from any unlocked row
returns the access token and resets the failure counter to zero. -/
theorem login_lockout_sequence
    (checkpw : String → String → Bool) (now : Nat) (db : LoginApi.Database)
    (e uid em hash : String) (la : Option Nat) (ca ua : Nat)
    (goodPw w1 w2 w3 w4 w5 : String)
    (hdb : db e = some ⟨uid, em, hash, 0, false, la, ca, ua⟩)
    (_hgood : checkpw goodPw hash = true)
    (h1 : checkpw w1 hash = false) (h2 : checkpw w2 hash = false)
    (h3 : checkpw w3 hash = false) (h4 : checkpw w4 hash = false)
    (h5 : checkpw w5 hash = false) :
    (LoginApi.login_iter checkpw now db
        [⟨e, w1⟩, ⟨e, w2⟩, ⟨e, w3⟩, ⟨e, w4⟩, ⟨e, w5⟩]).1 =
      [.failure 401 LoginApi.FAIL_ERROR_CODE, .failure 401 LoginApi.FAIL_ERROR_CODE,
       .failure 401 LoginApi.FAIL_ERROR_CODE, .failure 401 LoginApi.FAIL_ERROR_CODE,
       .failure 401 LoginApi.LOCK_ERROR_CODE] ∧
    (LoginApi.login_iter checkpw now db
        [⟨e, w1⟩, ⟨e, w2⟩, ⟨e, w3⟩, ⟨e, w4⟩, ⟨e, w5⟩]).2 e =
      some ⟨uid, em, hash, 5, true, some now, ca, ua⟩ ∧
    (∀ pw, LoginApi.login_api checkpw now
        (LoginApi.login_iter checkpw now db
          [⟨e, w1⟩, ⟨e, w2⟩, ⟨e, w3⟩, ⟨e, w4⟩, ⟨e, w5⟩]).2 ⟨e, pw⟩ =
      (.failure 401 LoginApi.LOCK_ERROR_CODE,
        (LoginApi.login_iter checkpw now db
          [⟨e, w1⟩, ⟨e, w2⟩, ⟨e, w3⟩, ⟨e, w4⟩, ⟨e, w5⟩]).2)) ∧
    (∀ (db' : LoginApi.Database) (m' : LoginApi.Member) (pw : String),
      db' e = some m' → m'.is_locked = false →
      checkpw pw m'.password_hash = true →
      (LoginApi.login_api checkpw now db' ⟨e, pw⟩).1 =
        .success (LoginApi.create_access_token m'.user_id now) m'.user_id ∧
      ∃ m'', (LoginApi.login_api checkpw now db' ⟨e, pw⟩).2 e = some m'' ∧
        m''.fail_count = 0) := by
  have hrun : LoginApi.login_iter checkpw now db
      [⟨e, w1⟩, ⟨e, w2⟩, ⟨e, w3⟩, ⟨e, w4⟩, ⟨e, w5⟩] =
      ([.failure 401 LoginApi.FAIL_ERROR_CODE, .failure 401 LoginApi.FAIL_ERROR_CODE,
        .failure 401 LoginApi.FAIL_ERROR_CODE, .failure 401 LoginApi.FAIL_ERROR_CODE,
        .failure 401 LoginApi.LOCK_ERROR_CODE],
       LoginApi.dbSet (LoginApi.dbSet (LoginApi.dbSet (LoginApi.dbSet (LoginApi.dbSet
         db e ⟨uid, em, hash, 1, false, la, ca, ua⟩)
         e ⟨uid, em, hash, 2, false, la, ca, ua⟩)
         e ⟨uid, em, hash, 3, false, la, ca, ua⟩)
         e ⟨uid, em, hash, 4, false, la, ca, ua⟩)
         e ⟨uid, em, hash, 5, true, some now, ca, ua⟩) := by
    simp [LoginApi.login_iter, LoginApi.login_api, hdb, h1, h2, h3, h4, h5,
      LoginApi.dbSet, LoginApi.MAX_FAIL_COUNT]
  refine ⟨?_, ?_, ?_, ?_⟩
  · rw [hrun]
  · rw [hrun]
    simp [LoginApi.dbSet]
  · intro pw
    rw [hrun]
    simp [LoginApi.login_api, LoginApi.dbSet]
  · intro db' m' pw hdb' hlk' hok
    by_cases hfc : m'.fail_count = 0
    · refine ⟨?_, m', ?_, hfc⟩
      · simp [LoginApi.login_api, hdb', hlk', hok]
      · simp [LoginApi.login_api, hdb', hlk', hok, hfc]
    · refine ⟨?_, ⟨m'.user_id, m'.email, m'.password_hash, 0, false, none,
        m'.created_at, now⟩, ?_, rfl⟩
      · simp [LoginApi.login_api, hdb', hlk', hok]
      · simp [LoginApi.login_api, hdb', hlk', hok, hfc, LoginApi.dbSet]

/-- Witness for C1: the concrete scenario of the generated test-suite —
account `user1@example.com` with stored password `Pass@word1`
(modelled by literal comparison for `bcrypt.checkpw`), five wrong
submissions of `WrongPass!1`, then a submission of the correct
password against the locked account. -/
theorem login_lockout_sequence_witness :
    (LoginApi.login_iter (fun pw hash => pw == hash) 0
        (fun a => if a = "user1@example.com" then
          some ⟨"u1", "user1@example.com", "Pass@word1", 0, false, none, 0, 0⟩
        else none)
        [⟨"user1@example.com", "WrongPass!1"⟩, ⟨"user1@example.com", "WrongPass!1"⟩,
         ⟨"user1@example.com", "WrongPass!1"⟩, ⟨"user1@example.com", "WrongPass!1"⟩,
         ⟨"user1@example.com", "WrongPass!1"⟩]).1 =
      [.failure 401 LoginApi.FAIL_ERROR_CODE, .failure 401 LoginApi.FAIL_ERROR_CODE,
       .failure 401 LoginApi.FAIL_ERROR_CODE, .failure 401 LoginApi.FAIL_ERROR_CODE,
       .failure 401 LoginApi.LOCK_ERROR_CODE] ∧
    (LoginApi.login_api (fun pw hash => pw == hash) 0
        (LoginApi.login_iter (fun pw hash => pw == hash) 0
          (fun a => if a = "user1@example.com" then
            some ⟨"u1", "user1@example.com", "Pass@word1", 0, false, none, 0, 0⟩
          else none)
          [⟨"user1@example.com", "WrongPass!1"⟩, ⟨"user1@example.com", "WrongPass!1"⟩,
           ⟨"user1@example.com", "WrongPass!1"⟩, ⟨"user1@example.com", "WrongPass!1"⟩,
           ⟨"user1@example.com", "WrongPass!1"⟩]).2
        ⟨"user1@example.com", "Pass@word1"⟩).1 = .failure 401 LoginApi.LOCK_ERROR_CODE := by
  obtain ⟨c1, c2, c3, c4⟩ := login_lockout_sequence (fun pw hash => pw == hash) 0
    (fun a => if a = "user1@example.com" then
      some ⟨"u1", "user1@example.com", "Pass@word1", 0, false, none, 0, 0⟩
    else none)
    "user1@example.com" "u1" "user1@example.com" "Pass@word1" none 0 0
    "Pass@word1" "WrongPass!1" "WrongPass!1" "WrongPass!1" "WrongPass!1" "WrongPass!1"
    (by decide) (by decide) (by decide) (by decide) (by decide) (by decide) (by decide)
  refine ⟨c1, ?_⟩
  rw [c3 "Pass@word1"]

/-- C2 counterexample: a request to `/recommend` with no
`Authorization` header and a well-formed body receives the framework's
request-validation failure, HTTP 422 (the header is declared required
via `Header(...)`), not the claimed HTTP 401. -/
theorem recommend_missing_header_counterexample :
    JwtServer.statusOf (JwtServer.recommend_request
        (fun _ => .invalidTokenError) none (some "hello")) = 422 ∧
    (422 : Nat) ≠ 401 := by
  exact ⟨rfl, by decide⟩

/-- C2 amended: a request with no `Authorization` header receives
HTTP 422 (framework request validation); for requests carrying a
well-formed question body, a header not starting with `"Bearer "`
receives 401, an expired or signature-invalid bearer token receives
401, and a valid token carrying a non-empty `sub` claim reaches the
endpoint with the subject extracted from `sub` and (when the question
passes the denylist) receives HTTP 200. -/
theorem recommend_token_auth (decode : String → JwtServer.DecodeResult)
    (auth qraw q : String) :
    (∀ question?, JwtServer.recommend_request decode none question? = .unprocessable) ∧
    (JwtServer.validate_question qraw = some q →
      ("Bearer ".data.isPrefixOf auth.data = false →
        JwtServer.recommend_request decode (some auth) (some qraw) =
          .failure 401 "Invalid Authorization header") ∧
      ("Bearer ".data.isPrefixOf auth.data = true →
        decode ⟨pyStrip (auth.data.drop 7)⟩ = .expiredSignatureError →
        JwtServer.recommend_request decode (some auth) (some qraw) =
          .failure 401 "Token expired") ∧
      ("Bearer ".data.isPrefixOf auth.data = true →
        decode ⟨pyStrip (auth.data.drop 7)⟩ = .invalidTokenError →
        JwtServer.recommend_request decode (some auth) (some qraw) =
          .failure 401 "Invalid token") ∧
      (∀ s, "Bearer ".data.isPrefixOf auth.data = true →
        decode ⟨pyStrip (auth.data.drop 7)⟩ = .decoded (some s) →
        s.isEmpty = false →
        JwtServer.detect_dangerous_pattern q = false →
        ∃ body, JwtServer.recommend_request decode (some auth) (some qraw) =
            .ok body ∧
          body.mbr_id = s ∧
          JwtServer.statusOf
            (JwtServer.recommend_request decode (some auth) (some qraw)) = 200)) := by
  refine ⟨fun question? => by cases question? <;> rfl, fun hq => ⟨?_, ?_, ?_, ?_⟩⟩
  · intro hnb
    simp [JwtServer.recommend_request, hq, JwtServer.get_current_user, hnb]
  · intro hb hdec
    simp [JwtServer.recommend_request, hq, JwtServer.get_current_user, hb, hdec]
  · intro hb hdec
    simp [JwtServer.recommend_request, hq, JwtServer.get_current_user, hb, hdec]
  · intro s hb hdec hs hdanger
    have hmain : JwtServer.recommend_request decode (some auth) (some qraw) =
        .ok ⟨s, JwtServer.sanitize_question q,
          JwtServer.json_dumps_question (JwtServer.sanitize_question q),
          "[mbr_id=" ++ s ++ "] 님의 질문은 '" ++ JwtServer.sanitize_question q
            ++ "' 입니다. (여기에 추천 로직 구현)"⟩ := by
      simp [JwtServer.recommend_request, hq, JwtServer.get_current_user, hb, hdec, hs,
        JwtServer.recommend, hdanger]
    exact ⟨_, hmain, rfl, by rw [hmain]; rfl⟩

/-- Witness for C2 (amended): a concrete verifier recognising the
token strings `EXPIRED` (expired) and `GOOD` (valid, subject
`user123`), exercised on a missing header, a non-Bearer header, an
expired token, an invalid token, and a valid token. -/
theorem recommend_token_auth_witness :
    JwtServer.recommend_request
        (fun t => if t = "EXPIRED" then .expiredSignatureError
         else if t = "GOOD" then .decoded (some "user123")
         else .invalidTokenError) none (some "hello") = .unprocessable ∧
    JwtServer.recommend_request
        (fun t => if t = "EXPIRED" then .expiredSignatureError
         else if t = "GOOD" then .decoded (some "user123")
         else .invalidTokenError) (some "Token abc") (some "hello") =
      .failure 401 "Invalid Authorization header" ∧
    JwtServer.recommend_request
        (fun t => if t = "EXPIRED" then .expiredSignatureError
         else if t = "GOOD" then .decoded (some "user123")
         else .invalidTokenError) (some "Bearer EXPIRED") (some "hello") =
      .failure 401 "Token expired" ∧
    JwtServer.recommend_request
        (fun t => if t = "EXPIRED" then .expiredSignatureError
         else if t = "GOOD" then .decoded (some "user123")
         else .invalidTokenError) (some "Bearer forged") (some "hello") =
      .failure 401 "Invalid token" ∧
    ∃ body, JwtServer.recommend_request
        (fun t => if t = "EXPIRED" then .expiredSignatureError
         else if t = "GOOD" then .decoded (some "user123")
         else .invalidTokenError) (some "Bearer GOOD") (some "hello") = .ok body ∧
      body.mbr_id = "user123" ∧
      JwtServer.statusOf (JwtServer.recommend_request
        (fun t => if t = "EXPIRED" then .expiredSignatureError
         else if t = "GOOD" then .decoded (some "user123")
         else .invalidTokenError) (some "Bearer GOOD") (some "hello")) = 200 := by
  refine ⟨?_, ?_, ?_, ?_, ?_⟩
  · exact (recommend_token_auth (fun t => if t = "EXPIRED" then .expiredSignatureError
      else if t = "GOOD" then .decoded (some "user123")
      else .invalidTokenError) "x" "hello" "hello").1 (some "hello")
  · exact ((recommend_token_auth (fun t => if t = "EXPIRED" then .expiredSignatureError
      else if t = "GOOD" then .decoded (some "user123")
      else .invalidTokenError) "Token abc" "hello" "hello").2 (by decide)).1 (by decide)
  · exact ((recommend_token_auth (fun t => if t = "EXPIRED" then .expiredSignatureError
      else if t = "GOOD" then .decoded (some "user123")
      else .invalidTokenError) "Bearer EXPIRED" "hello" "hello").2 (by decide)).2.1
      (by decide) (by decide)
  · exact ((recommend_token_auth (fun t => if t = "EXPIRED" then .expiredSignatureError
      else if t = "GOOD" then .decoded (some "user123")
      else .invalidTokenError) "Bearer forged" "hello" "hello").2 (by decide)).2.2.1
      (by decide) (by decide)
  · exact ((recommend_token_auth (fun t => if t = "EXPIRED" then .expiredSignatureError
      else if t = "GOOD" then .decoded (some "user123")
      else .invalidTokenError) "Bearer GOOD" "hello" "hello").2 (by decide)).2.2.2
      "user123" (by decide) (by decide) (by decide) (by decide)

/-- C10: every question accepted by `QuestionRequest`'s validator —
non-empty after stripping, at most 300 characters, all characters in
the allow-list — is left unchanged by `sanitize_question` (the filter
keeps exactly the allow-listed characters), so a successful
`/recommend` response echoes the validated question verbatim in its
`question` field. -/
theorem sanitize_validated_question (qraw q : String)
    (h : JwtServer.validate_question qraw = some q) :
    JwtServer.sanitize_question q = q ∧
    (∀ decode auth user, JwtServer.get_current_user decode auth = .ok user →
      JwtServer.detect_dangerous_pattern q = false →
      ∃ body, JwtServer.recommend_request decode (some auth) (some qraw) = .ok body ∧
        body.question = q) := by
  have hall : q.data.all JwtServer.isSafeQuestionChar = true := by
    simp only [JwtServer.validate_question] at h
    split_ifs at h with h1 h2 h3
    · have hq : (⟨pyStrip qraw.data⟩ : String) = q := Option.some.inj h
      rw [← hq]
      simpa using h3
  have hsan : JwtServer.sanitize_question q = q := by
    unfold JwtServer.sanitize_question
    have hfilter : q.data.filter JwtServer.isSafeQuestionChar = q.data :=
      List.filter_eq_self.mpr (fun a ha => List.all_eq_true.mp hall a ha)
    rw [hfilter]
  refine ⟨hsan, ?_⟩
  intro decode auth user huser hdanger
  have hmain : JwtServer.recommend_request decode (some auth) (some qraw) =
      .ok ⟨user.mbr_id, JwtServer.sanitize_question q,
        JwtServer.json_dumps_question (JwtServer.sanitize_question q),
        "[mbr_id=" ++ user.mbr_id ++ "] 님의 질문은 '" ++ JwtServer.sanitize_question q
          ++ "' 입니다. (여기에 추천 로직 구현)"⟩ := by
    simp [JwtServer.recommend_request, h, huser, JwtServer.recommend, hdanger]
  exact ⟨_, hmain, hsan⟩

/-- Witness for C10: the concrete question `"  Hello world  "`, valid
after stripping, echoed verbatim through the endpoint. -/
theorem sanitize_validated_question_witness :
    JwtServer.sanitize_question "Hello world" = "Hello world" ∧
    ∃ body, JwtServer.recommend_request
        (fun t => if t = "GOOD" then .decoded (some "user123")
         else .invalidTokenError)
        (some "Bearer GOOD") (some "  Hello world  ") = .ok body ∧
      body.question = "Hello world" := by
  obtain ⟨h1, h2⟩ := sanitize_validated_question "  Hello world  " "Hello world" (by decide)
  exact ⟨h1, h2 (fun t => if t = "GOOD" then .decoded (some "user123")
    else .invalidTokenError) "Bearer GOOD" ⟨"user123"⟩ rfl (by decide)⟩
